import Mathlib

/-!
Shallow embedding of the display/validation utility module of the
cosmos-multisig-ui repository (the module exporting abbreviateLongString,
printableCoin, printableCoins, exampleAddress, examplePubkey, checkAddress
and explorerLinkTx), together with proofs checking the natural-language
specification of that module against the code.

The JavaScript module reads its configuration from process.env; following the
spec's data model this is embedded as an immutable `Config` value passed to
each function.  The external primitives the module calls (the bech32 codec,
base64, SHA-512 and the fixed-point `Decimal` of the cosmjs libraries) are
embedded as executable Lean functions faithful to those libraries.

JavaScript `string | undefined | null` values are embedded as `Option String`
(`none` standing for an absent value), byte arrays as `List Nat` with entries
below 256, and a JavaScript function that can throw returns `Except String`.
-/

/-! ## Character helpers (ASCII case mapping, as used on the data involved) -/

/-- ASCII lower-casing of one character, the fragment of JavaScript
toLowerCase relevant to the embedded code. -/
def charLower (c : Char) : Char :=
  if 'A' ≤ c ∧ c ≤ 'Z' then Char.ofNat (c.toNat + 32) else c

/-- ASCII upper-casing of one character, the fragment of JavaScript
toUpperCase relevant to the embedded code. -/
def charUpper (c : Char) : Char :=
  if 'a' ≤ c ∧ c ≤ 'z' then Char.ofNat (c.toNat - 32) else c

/-- Upper-case a string (JavaScript s.toUpperCase() on ASCII data). -/
def strToUpper (s : String) : String := String.mk (s.data.map charUpper)

/-- Whether pre is a prefix of s (JavaScript s.startsWith(pre)). -/
def strStartsWith (s pre : String) : Bool := pre.data.isPrefixOf s.data

/-- Stringification of a possibly absent JavaScript value when concatenated
into a string: an absent value prints as "undefined". -/
def jsOptString : Option String → String
  | some s => s
  | none => "undefined"

/-- JavaScript truthiness of a string-or-undefined value: an absent value and
the empty string are falsy. -/
def jsTruthy : Option String → Bool
  | some s => !(s == "")
  | none => false

/-! ## The process-wide configuration (process.env), per the spec's data model -/

/-- The configuration the module reads from process.env, loaded once and
immutable: the native denom (NEXT_PUBLIC_DENOM), the display exponent
(NEXT_PUBLIC_DISPLAY_DENOM_EXPONENT), the display ticker
(NEXT_PUBLIC_DISPLAY_DENOM), the bech32 address prefix
(NEXT_PUBLIC_ADDRESS_PREFIX) and the optional transaction explorer URL
template (NEXT_PUBLIC_EXPLORER_LINK_TX, absent when the feature is off). -/
structure Config where
  nativeDenom : String
  displayDenomExponent : Nat
  displayDenom : String
  addressPrefix : String
  explorerLinkTxTemplate : Option String

/-- A Coin as the module receives it: both fields may be absent at runtime
(the code guards coin.amount with a nullish default and coin.denom with
optional chaining). -/
structure Coin where
  amount : Option String
  denom : Option String
deriving DecidableEq

/-! ## The cosmjs fixed-point Decimal (external primitive)

Embedded from the documented behaviour of Decimal in the cosmjs math
library: fromAtomics first checks the fractional-digit count (at most 100;
the count is a natural number here, so the library's integrality and
non-negativity checks hold by type) and then requires the atomics string to
match the pattern of one or more decimal digits; toString divides by
10 ^ fractionalDigits and prints the fractional part, when it is not zero,
padded to fractionalDigits digits with trailing zeros trimmed. -/

/-- Whether a string is a valid non-negative integer numeral for the
fixed-point parser: non-empty and all decimal digits. -/
def validAtomics (s : String) : Bool := !(s == "") && s.data.all Char.isDigit

/-- Parse a digit string into a natural number. -/
def parseDecimalDigits (s : String) : Nat :=
  s.data.foldl (fun n c => n * 10 + (c.toNat - 48)) 0

/-- A fixed-point decimal: an atomic (integer) value and the number of
fractional digits. -/
structure Decimal where
  atomics : Nat
  fractionalDigits : Nat
deriving DecidableEq

/-- Decimal.fromAtomics of the cosmjs math library: errors when the
fractional-digit count exceeds 100 or the numeral is malformed. -/
def Decimal.fromAtomics (atomics : String) (fractionalDigits : Nat) :
    Except String Decimal :=
  if 100 < fractionalDigits then
    .error "Fractional digits must not exceed 100"
  else if validAtomics atomics then
    .ok ⟨parseDecimalDigits atomics, fractionalDigits⟩
  else
    .error "Invalid string format. Only non-negative integers in decimal representation supported."

/-- Strip trailing '0' characters from a string. -/
def stripTrailingZeros (s : String) : String :=
  String.mk ((s.data.reverse.dropWhile (fun c => c == '0')).reverse)

/-- Left-pad a string with '0' up to the given length (padStart). -/
def padStartZeros (s : String) (n : Nat) : String :=
  String.mk (List.replicate (n - s.data.length) '0' ++ s.data)

/-- Decimal.toString of the cosmjs math library: the whole part, and when the
fractional part is non-zero a point and the fractional digits with trailing
zeros trimmed. -/
def Decimal.toString (d : Decimal) : String :=
  let factor := 10 ^ d.fractionalDigits
  let whole := d.atomics / factor
  let fractional := d.atomics % factor
  if fractional = 0 then Nat.repr whole
  else
    Nat.repr whole ++ "." ++
      stripTrailingZeros (padStartZeros (Nat.repr fractional) d.fractionalDigits)

/-- Whether an Except value is an error (a JavaScript call that threw). -/
def exceptIsError {ε α : Type} : Except ε α → Bool
  | .error _ => true
  | .ok _ => false

/-! ## Coin formatting (printableCoin, printableCoins) -/

/-- NARROW NO-BREAK SPACE (U+202F), the separator the module puts between a
value and its ticker. -/
def thinSpace : String := " "

/-- printableCoin: converts a Coin into a user-readable string.  A nullish
coin renders as a dash; a coin whose denom equals the configured native denom
is parsed with the configured display exponent and rendered with the display
ticker; otherwise a denom with a leading "u" is parsed with exponent 6 and
rendered with the denom upper-cased without its leading "u"; any other coin
is rendered verbatim.  An error value models the JavaScript call throwing
(the decimal parser's exception propagates). -/
def printableCoin (cfg : Config) (coin : Option Coin) : Except String String :=
  match coin with
  | none => .ok "–"
  | some c =>
    if c.denom = some cfg.nativeDenom then
      (Decimal.fromAtomics (c.amount.getD "0") cfg.displayDenomExponent).map
        (fun v => v.toString ++ thinSpace ++ cfg.displayDenom)
    else if (c.denom.map (fun d => strStartsWith d "u")).getD false then
      (Decimal.fromAtomics (c.amount.getD "0") 6).map
        (fun v => v.toString ++ thinSpace ++
          strToUpper (String.mk ((c.denom.getD "").data.drop 1)))
    else
      .ok (jsOptString c.amount ++ thinSpace ++ jsOptString c.denom)

/-- printableCoins: throws unless the list holds exactly one coin, and then
delegates to printableCoin on that coin. -/
def printableCoins (cfg : Config) (coins : List (Option Coin)) :
    Except String String :=
  if coins.length ≠ 1 then
    .error "Implementation only supports exactly one coin entry."
  else printableCoin cfg (coins.getD 0 none)

/-! ## Identifier abbreviation (abbreviateLongString) -/

/-- abbreviateLongString: strings shorter than 13 characters are returned
unchanged, longer ones are cut to the first five characters, "...", and the
last five characters (JavaScript slice(0, 5) and slice(-5)). -/
def abbreviateLongString (longString : String) : String :=
  if longString.length < 13 then
    longString
  else
    String.mk (longString.data.take 5) ++ "..." ++
      String.mk (longString.data.drop (longString.data.length - 5))

/-! ## Base64 (external primitive: fromBase64 / toBase64 of the encoding
library, standard alphabet with '=' padding) -/

/-- The standard base64 alphabet. -/
def base64Alphabet : List Char :=
  "ABCDEFGHIJKLMNOPQRSTUVWXYZabcdefghijklmnopqrstuvwxyz0123456789+/".data

/-- The 6-bit value of a base64 character, none for a character outside the
alphabet. -/
def b64CharValue (c : Char) : Option Nat :=
  base64Alphabet.findIdx? (fun a => a == c)

/-- Base64-encode a byte list (groups of three bytes into four characters,
with '=' padding on a final short group). -/
def encB64 : List Nat → List Char
  | b1 :: b2 :: b3 :: rest =>
    let n := (b1 <<< 16) ||| (b2 <<< 8) ||| b3
    base64Alphabet.getD ((n >>> 18) &&& 63) 'A' ::
      base64Alphabet.getD ((n >>> 12) &&& 63) 'A' ::
      base64Alphabet.getD ((n >>> 6) &&& 63) 'A' ::
      base64Alphabet.getD (n &&& 63) 'A' :: encB64 rest
  | [b1, b2] =>
    let n := (b1 <<< 8) ||| b2
    [base64Alphabet.getD ((n >>> 10) &&& 63) 'A',
      base64Alphabet.getD ((n >>> 4) &&& 63) 'A',
      base64Alphabet.getD ((n <<< 2) &&& 63) 'A', '=']
  | [b1] =>
    [base64Alphabet.getD ((b1 >>> 2) &&& 63) 'A',
      base64Alphabet.getD ((b1 <<< 4) &&& 63) 'A', '=', '=']
  | [] => []

/-- toBase64 of the encoding library. -/
def toBase64 (bytes : List Nat) : String := String.mk (encB64 bytes)

/-- Base64-decode a character list, none on a malformed input (bad length,
character outside the alphabet, misplaced padding). -/
def decB64 : List Char → Option (List Nat)
  | [] => some []
  | c1 :: c2 :: c3 :: c4 :: rest =>
    match b64CharValue c1, b64CharValue c2 with
    | some v1, some v2 =>
      if c3 = '=' then
        if c4 = '=' ∧ rest = [] then some [((v1 <<< 2) ||| (v2 >>> 4)) &&& 255]
        else none
      else
        match b64CharValue c3 with
        | some v3 =>
          if c4 = '=' then
            if rest = [] then
              some [((v1 <<< 2) ||| (v2 >>> 4)) &&& 255,
                (((v2 &&& 15) <<< 4) ||| (v3 >>> 2)) &&& 255]
            else none
          else
            match b64CharValue c4 with
            | some v4 =>
              (decB64 rest).map (fun tail =>
                let n := (v1 <<< 18) ||| (v2 <<< 12) ||| (v3 <<< 6) ||| v4
                ((n >>> 16) &&& 255) :: ((n >>> 8) &&& 255) :: (n &&& 255) :: tail)
            | none => none
          | none => none
    | _, _ => none
  | _ => none

/-- fromBase64 of the encoding library (none models the library throwing on
malformed input). -/
def fromBase64 (s : String) : Option (List Nat) := decB64 s.data

/-! ## SHA-512 (external primitive: sha512 of the crypto library)

A full executable SHA-512 over byte lists, FIPS 180-4: 64-bit words are
naturals reduced modulo 2 ^ 64 after every arithmetic step. -/

/-- The 64-bit mask. -/
def mask64 : Nat := 0xffffffffffffffff

/-- Right-rotation of a 64-bit word. -/
def rotr64 (x n : Nat) : Nat := ((x >>> n) ||| (x <<< (64 - n))) &&& mask64

/-- Bitwise complement of a 64-bit word. -/
def not64 (x : Nat) : Nat := x ^^^ mask64

/-- The SHA-512 round constants (first 64 bits of the fractional parts of the
cube roots of the first 80 primes). -/
def sha512K : List Nat :=
  [4794697086780616226, 8158064640168781261, 13096744586834688815,
   16840607885511220156, 4131703408338449720, 6480981068601479193,
   10538285296894168987, 12329834152419229976, 15566598209576043074,
   1334009975649890238, 2608012711638119052, 6128411473006802146,
   8268148722764581231, 9286055187155687089, 11230858885718282805,
   13951009754708518548, 16472876342353939154, 17275323862435702243,
   1135362057144423861, 2597628984639134821, 3308224258029322869,
   5365058923640841347, 6679025012923562964, 8573033837759648693,
   10970295158949994411, 12119686244451234320, 12683024718118986047,
   13788192230050041572, 14330467153632333762, 15395433587784984357,
   489312712824947311, 1452737877330783856, 2861767655752347644,
   3322285676063803686, 5560940570517711597, 5996557281743188959,
   7280758554555802590, 8532644243296465576, 9350256976987008742,
   10552545826968843579, 11727347734174303076, 12113106623233404929,
   14000437183269869457, 14369950271660146224, 15101387698204529176,
   15463397548674623760, 17586052441742319658, 1182934255886127544,
   1847814050463011016, 2177327727835720531, 2830643537854262169,
   3796741975233480872, 4115178125766777443, 5681478168544905931,
   6601373596472566643, 7507060721942968483, 8399075790359081724,
   8693463985226723168, 9568029438360202098, 10144078919501101548,
   10430055236837252648, 11840083180663258601, 13761210420658862357,
   14299343276471374635, 14566680578165727644, 15097957966210449927,
   16922976911328602910, 17689382322260857208, 500013540394364858,
   748580250866718886, 1242879168328830382, 1977374033974150939,
   2944078676154940804, 3659926193048069267, 4368137639120453308,
   4836135668995329356, 5532061633213252278, 6448918945643986474,
   6902733635092675308, 7801388544844847127]

/-- The eight-word SHA-512 working state. -/
structure Sha512State where
  a : Nat
  b : Nat
  c : Nat
  d : Nat
  e : Nat
  f : Nat
  g : Nat
  h : Nat

/-- The SHA-512 initial hash value. -/
def sha512Init : Sha512State :=
  ⟨7640891576956012808, 13503953896175478587,
   4354685564936845355, 11912009170470909681,
   5840696475078001361, 11170449401992604703,
   2270897969802886507, 6620516959819538809⟩

/-- The big sigma-0 function of SHA-512. -/
def bigSigma0 (x : Nat) : Nat := rotr64 x 28 ^^^ rotr64 x 34 ^^^ rotr64 x 39

/-- The big sigma-1 function of SHA-512. -/
def bigSigma1 (x : Nat) : Nat := rotr64 x 14 ^^^ rotr64 x 18 ^^^ rotr64 x 41

/-- The small sigma-0 function of SHA-512. -/
def smallSigma0 (x : Nat) : Nat := rotr64 x 1 ^^^ rotr64 x 8 ^^^ (x >>> 7)

/-- The small sigma-1 function of SHA-512. -/
def smallSigma1 (x : Nat) : Nat := rotr64 x 19 ^^^ rotr64 x 61 ^^^ (x >>> 6)

/-- Extend the message schedule by n words; the accumulator list is kept most
recent first, so W[i - 1] is at the head. -/
def sha512ExtendRev (wrev : List Nat) : Nat → List Nat
  | 0 => wrev
  | n + 1 =>
    sha512ExtendRev
      (((wrev.getD 15 0 + smallSigma0 (wrev.getD 14 0) + wrev.getD 6 0 +
          smallSigma1 (wrev.getD 1 0)) &&& mask64) :: wrev) n

/-- One SHA-512 compression round for one (round constant, schedule word)
pair. -/
def sha512Round (st : Sha512State) (kw : Nat × Nat) : Sha512State :=
  let t1 := (st.h + bigSigma1 st.e + ((st.e &&& st.f) ^^^ (not64 st.e &&& st.g)) +
    kw.1 + kw.2) &&& mask64
  let t2 := (bigSigma0 st.a +
    ((st.a &&& st.b) ^^^ (st.a &&& st.c) ^^^ (st.b &&& st.c))) &&& mask64
  ⟨(t1 + t2) &&& mask64, st.a, st.b, st.c, (st.d + t1) &&& mask64, st.e, st.f, st.g⟩

/-- Compress one 16-word block into the state. -/
def sha512Compress (st : Sha512State) (block : List Nat) : Sha512State :=
  let w := (sha512ExtendRev block.reverse 64).reverse
  let r := (sha512K.zip w).foldl sha512Round st
  ⟨(st.a + r.a) &&& mask64, (st.b + r.b) &&& mask64, (st.c + r.c) &&& mask64,
   (st.d + r.d) &&& mask64, (st.e + r.e) &&& mask64, (st.f + r.f) &&& mask64,
   (st.g + r.g) &&& mask64, (st.h + r.h) &&& mask64⟩

/-- The 16-byte big-endian encoding of the message bit length. -/
def sha512LenBytes (bits : Nat) : List Nat :=
  (List.range 16).map (fun i => (bits >>> (8 * (15 - i))) &&& 255)

/-- SHA-512 padding: a 0x80 byte, zeros to 112 modulo 128, and the 16-byte
big-endian bit length. -/
def sha512Pad (msg : List Nat) : List Nat :=
  msg ++ 0x80 :: List.replicate ((240 - (msg.length + 1) % 128) % 128) 0 ++
    sha512LenBytes (msg.length * 8)

/-- Group bytes into big-endian 64-bit words (any trailing group of fewer
than eight bytes is dropped; padded input has none). -/
def bytesToWords64 : List Nat → List Nat
  | b0 :: b1 :: b2 :: b3 :: b4 :: b5 :: b6 :: b7 :: rest =>
    ((b0 <<< 56) ||| (b1 <<< 48) ||| (b2 <<< 40) ||| (b3 <<< 32) ||| (b4 <<< 24) |||
      (b5 <<< 16) ||| (b6 <<< 8) ||| b7) :: bytesToWords64 rest
  | _ => []

/-- Group words into 16-word blocks (any trailing short group is dropped;
padded input has none). -/
def wordsToBlocks : List Nat → List (List Nat)
  | w0 :: w1 :: w2 :: w3 :: w4 :: w5 :: w6 :: w7 :: w8 :: w9 :: w10 :: w11 ::
      w12 :: w13 :: w14 :: w15 :: rest =>
    [w0, w1, w2, w3, w4, w5, w6, w7, w8, w9, w10, w11, w12, w13, w14, w15] ::
      wordsToBlocks rest
  | _ => []

/-- The 8-byte big-endian encoding of a 64-bit word. -/
def word64Bytes (w : Nat) : List Nat :=
  [(w >>> 56) &&& 255, (w >>> 48) &&& 255, (w >>> 40) &&& 255, (w >>> 32) &&& 255,
   (w >>> 24) &&& 255, (w >>> 16) &&& 255, (w >>> 8) &&& 255, w &&& 255]

/-- sha512 of the crypto library: the 64-byte SHA-512 digest of a byte
list. -/
def sha512 (msg : List Nat) : List Nat :=
  let st := (wordsToBlocks (bytesToWords64 (sha512Pad msg))).foldl
    sha512Compress sha512Init
  word64Bytes st.a ++ word64Bytes st.b ++ word64Bytes st.c ++ word64Bytes st.d ++
    word64Bytes st.e ++ word64Bytes st.f ++ word64Bytes st.g ++ word64Bytes st.h

/-! ## Bech32 (external primitive: the bech32 codec of the encoding library) -/

/-- The bech32 data charset. -/
def bech32Charset : List Char := "qpzry9x8gf2tvdw0s3jn54khce6mua7l".data

/-- The 5-bit value of a bech32 data character, none for a character outside
the charset. -/
def bech32CharValue (c : Char) : Option Nat :=
  bech32Charset.findIdx? (fun a => a == c)

/-- One step of the bech32 checksum polynomial. -/
def bech32PolymodStep (pre : Nat) : Nat :=
  let b := pre >>> 25
  ((pre &&& 0x1ffffff) <<< 5) ^^^
    (if b &&& 1 ≠ 0 then 0x3b6a57b2 else 0) ^^^
    (if b &&& 2 ≠ 0 then 0x26508e6d else 0) ^^^
    (if b &&& 4 ≠ 0 then 0x1ea119fa else 0) ^^^
    (if b &&& 8 ≠ 0 then 0x3d4233dd else 0) ^^^
    (if b &&& 16 ≠ 0 then 0x2a1462b3 else 0)

/-- The bech32 checksum polynomial over a value list, starting from 1. -/
def bech32Polymod (values : List Nat) : Nat :=
  values.foldl (fun chk v => bech32PolymodStep chk ^^^ v) 1

/-- The human-readable part expanded for checksumming: high bits, a zero,
low bits. -/
def bech32HrpExpand (hrp : List Char) : List Nat :=
  hrp.map (fun c => c.toNat >>> 5) ++ [0] ++ hrp.map (fun c => c.toNat &&& 31)

/-- Whether the checksum of an hrp and a word list (checksum words included)
is valid. -/
def bech32VerifyChecksum (hrp : List Char) (words : List Nat) : Bool :=
  bech32Polymod (bech32HrpExpand hrp ++ words) == 1

/-- The six checksum words for an hrp and a data word list. -/
def bech32CreateChecksum (hrp : List Char) (words : List Nat) : List Nat :=
  let pm := bech32Polymod (bech32HrpExpand hrp ++ words ++ [0, 0, 0, 0, 0, 0]) ^^^ 1
  (List.range 6).map (fun i => (pm >>> (5 * (5 - i))) &&& 31)

/-- One step of regrouping 5-bit words into 8-bit bytes: the state is the bit
accumulator, the number of pending bits, and the output so far. -/
def bech32FromWordsStep (st : Nat × Nat × List Nat) (w : Nat) :
    Nat × Nat × List Nat :=
  let acc := (st.1 <<< 5) ||| w
  let bits := st.2.1 + 5
  if 8 ≤ bits then (acc, bits - 8, st.2.2 ++ [(acc >>> (bits - 8)) &&& 255])
  else (acc, bits, st.2.2)

/-- Regroup 5-bit words into bytes, rejecting excess or non-zero padding (the
strict conversion the decoder applies). -/
def bech32FromWords (words : List Nat) : Except String (List Nat) :=
  let st := words.foldl bech32FromWordsStep (0, 0, [])
  if 5 ≤ st.2.1 then .error "Excess padding"
  else if (st.1 <<< (8 - st.2.1)) &&& 255 ≠ 0 then .error "Non-zero padding"
  else .ok st.2.2

/-- One step of regrouping bytes into 5-bit words; the pending bit count is
below 5 before each step, so each byte yields one or two words. -/
def bech32ToWordsStep (st : Nat × Nat × List Nat) (b : Nat) :
    Nat × Nat × List Nat :=
  let acc := (st.1 <<< 8) ||| b
  let bits := st.2.1 + 8
  if 10 ≤ bits then
    (acc, bits - 10,
      st.2.2 ++ [(acc >>> (bits - 5)) &&& 31, (acc >>> (bits - 10)) &&& 31])
  else (acc, bits - 5, st.2.2 ++ [(acc >>> (bits - 5)) &&& 31])

/-- Regroup bytes into 5-bit words, zero-padding the final word. -/
def bech32ToWords (bytes : List Nat) : List Nat :=
  let st := bytes.foldl bech32ToWordsStep (0, 0, [])
  if 0 < st.2.1 then st.2.2 ++ [(st.1 <<< (5 - st.2.1)) &&& 31] else st.2.2

/-- The index of the last '1' in a character list (the bech32 separator is
the last '1' of the address). -/
def lastIndexOfOne (l : List Char) : Option Nat :=
  ((List.range l.length).filter (fun i => l.getD i ' ' == '1')).getLast?

namespace Bech32

/-- Bech32.decode of the encoding library: case normalisation, separator
split, charset and checksum validation, and strict 5-to-8-bit regrouping of
the data words.  An error value models the library throwing. -/
def decode (address : String) : Except String (String × List Nat) :=
  let str := address.data
  if str.length < 8 then .error (address ++ " too short")
  else
    let lowered := str.map charLower
    if str ≠ lowered ∧ str ≠ str.map charUpper then
      .error ("Mixed-case string " ++ address)
    else
      match lastIndexOfOne lowered with
      | none => .error ("No separator character for " ++ address)
      | some 0 => .error ("Missing prefix for " ++ address)
      | some split =>
        let hrp := lowered.take split
        let wordChars := lowered.drop (split + 1)
        if hrp.any (fun c => c.toNat < 33 ∨ 126 < c.toNat) then
          .error ("Invalid prefix (" ++ String.mk hrp ++ ")")
        else if wordChars.length < 6 then .error "Data too short"
        else
          match wordChars.mapM bech32CharValue with
          | none => .error ("Unknown character " ++ address)
          | some words =>
            if !bech32VerifyChecksum hrp words then
              .error ("Invalid checksum for " ++ address)
            else
              match bech32FromWords (words.take (words.length - 6)) with
              | .error e => .error e
              | .ok data => .ok (String.mk hrp, data)

/-- Bech32.encode of the encoding library: the lower-cased prefix, the '1'
separator, and the data words followed by the checksum words, all in the
bech32 charset.  Per the spec's interface description the configured prefix
is a well-formed human-readable part, so the library's prefix validation is
not modelled. -/
def encode (hrp : String) (data : List Nat) : String :=
  let hrpL := hrp.data.map charLower
  let words := bech32ToWords data
  String.mk (hrpL ++ '1' ::
    (words ++ bech32CreateChecksum hrpL words).map (fun w => bech32Charset.getD w 'q'))

end Bech32

/-! ## First-occurrence string replacement (JavaScript String.replace with a
string pattern, as used by explorerLinkTx) -/

/-- Whether pat occurs as a contiguous substring of a character list. -/
def listHasInfix (pat : List Char) : List Char → Bool
  | [] => pat.isEmpty
  | c :: rest => pat.isPrefixOf (c :: rest) || listHasInfix pat rest

/-- Split a character list at the first occurrence of pat: the part before
the occurrence and the part after it, or none when pat does not occur. -/
def splitFirst (pat : List Char) : List Char → Option (List Char × List Char)
  | [] => if pat.isPrefixOf ([] : List Char) then some ([], []) else none
  | c :: rest =>
    if pat.isPrefixOf (c :: rest) then some ([], (c :: rest).drop pat.length)
    else (splitFirst pat rest).map (fun p => (c :: p.1, p.2))

/-- GetSubstitution of JavaScript String.replace for a string replacement
with a string pattern (so no capture groups): inside the replacement, a
dollar followed by a second dollar yields one dollar, by an ampersand the
matched text, by a backquote (code point 96) the part of the subject before
the match, and by an apostrophe (code point 39) the part after it; a dollar
followed by anything else, or a trailing dollar, stays literal. -/
def jsGetSubstitution (matched before after : List Char) : List Char → List Char
  | [] => []
  | c :: rest =>
    if c = '$' then
      match rest with
      | [] => ['$']
      | d :: rest2 =>
        if d = '$' then '$' :: jsGetSubstitution matched before after rest2
        else if d = '&' then matched ++ jsGetSubstitution matched before after rest2
        else if d = Char.ofNat 96 then before ++ jsGetSubstitution matched before after rest2
        else if d = Char.ofNat 39 then after ++ jsGetSubstitution matched before after rest2
        else '$' :: d :: jsGetSubstitution matched before after rest2
    else c :: jsGetSubstitution matched before after rest

/-- Replace the first occurrence of pat by the replacement rep (JavaScript
s.replace(pat, rep) with a string pattern: the matched text is pat itself,
the replacement undergoes GetSubstitution against the surrounding parts, and
no occurrence leaves the list unchanged). -/
def replaceFirst (s pat rep : List Char) : List Char :=
  match splitFirst pat s with
  | some (a, b) => a ++ jsGetSubstitution pat a b rep ++ b
  | none => s

/-! ## The module's functions on example data, validation and links -/

/-- Run a loop body n times (for (let i = 0; i < n; ++i) with a body that
only rewrites the state). -/
def jsLoop {α : Type} (f : α → α) : Nat → α → α
  | 0, a => a
  | n + 1, a => f (jsLoop f n a)

/-- The fixed bech32 seed address hard-coded in exampleAddress. -/
def exampleAddressBech32Seed : String := "cosmos1vqpjljwsynsn58dugz0w8ut7kun7t8ls2qkmsq"

/-- The 20-byte payload of the fixed seed address (the code decodes the
hard-coded constant and takes its data; the decode of this constant
succeeds, so the default branch is unreachable). -/
def exampleAddressSeed : List Nat :=
  match Bech32.decode exampleAddressBech32Seed with
  | .ok (_, data) => data
  | .error _ => []

/-- One iteration of the example generators' loop body on a byte list:
hash one time and trim to the original length
(sha512(data).slice(0, data.length)). -/
def hashStep (data : List Nat) : List Nat := (sha512 data).take data.length

/-- exampleAddress: decode the fixed seed, hash-and-trim index times, and
re-encode under the configured address prefix.  The argument is an optional
integer (none embeds a missing, undefined or null argument; the code's
index-or-zero default makes those behave as index 0, and a negative index
runs the loop zero times). -/
def exampleAddress (cfg : Config) (index : Option Int) : String :=
  let usedIndex : Int := index.getD 0
  Bech32.encode cfg.addressPrefix
    (jsLoop hashStep usedIndex.toNat exampleAddressSeed)

/-- The fixed base64 seed pubkey hard-coded in examplePubkey. -/
def examplePubkeySeedB64 : String := "Akd/qKMWdZXyiMnSu6aFLpQEGDO0ijyal9mXUIcVaPNX"

/-- The 33 bytes of the fixed seed pubkey (the decode of this constant
succeeds, so the default branch is unreachable). -/
def examplePubkeySeed : List Nat := (fromBase64 examplePubkeySeedB64).getD []

/-- One iteration of examplePubkey's loop body: hash-and-trim, then force
byte 0 with the parity of the outer index parameter
(data[0] = index % 2 ? 0x02 : 0x03, so an odd index writes 0x02 and an even
index writes 0x03; a write out of range on an empty array is a no-op, as for
a typed array). -/
def examplePubkeyStep (index : Int) (data : List Nat) : List Nat :=
  ((sha512 data).take data.length).set 0 (if index % 2 = 0 then 0x03 else 0x02)

/-- examplePubkey: decode the fixed base64 seed, run the loop body index
times, and re-encode as base64.  The argument is an optional integer, as for
exampleAddress. -/
def examplePubkey (index : Option Int) : String :=
  match index with
  | none => toBase64 examplePubkeySeed
  | some i => toBase64 (jsLoop (examplePubkeyStep i) i.toNat examplePubkeySeed)

/-- checkAddress: an error message for invalid addresses, null (none) when
the input is valid.  The decoder's exception is caught and stringified (a
JavaScript Error prints as "Error: " and its message). -/
def checkAddress (cfg : Config) (input : String) : Option String :=
  if input = "" then some "Empty"
  else
    match Bech32.decode input with
    | .error e => some ("Error: " ++ e)
    | .ok (pfx, data) =>
      if pfx ≠ cfg.addressPrefix then
        some ("Expected address prefix '" ++ cfg.addressPrefix ++ "' but got '" ++
          pfx ++ "'")
      else if data.length ≠ 20 then
        some "Invalid address length in bech32 data. Must be 20 bytes."
      else none

/-- explorerLinkTx: when the explorer template is configured (set and
non-empty, JavaScript truthiness), the template with the first "%s" replaced
by the hash under the replacement's dollar-substitution rules; null (none)
otherwise. -/
def explorerLinkTx (cfg : Config) (hash : String) : Option String :=
  match cfg.explorerLinkTxTemplate with
  | some t =>
    if t = "" then none
    else some (String.mk (replaceFirst t.data ['%', 's'] hash.data))
  | none => none

/-! ## Definitions following the spec's words (for the refinement claims) -/

/-- One iteration of examplePubkey's loop as claim C1 words it: replace data
with the first 33 bytes of SHA-512 of the data, then force byte 0 to 0x02
when the outer index parameter is even and to 0x03 when it is odd. -/
def examplePubkeyClaimStep (index : Int) (data : List Nat) : List Nat :=
  ((sha512 data).take 33).set 0 (if index % 2 = 0 then 0x02 else 0x03)

/-- examplePubkey as claim C1 words it: the claimed loop body run index times
from the seed, base64-encoded. -/
def examplePubkeyClaimed (index : Int) : String :=
  toBase64 (jsLoop (examplePubkeyClaimStep index) index.toNat examplePubkeySeed)

/-- One iteration of examplePubkey's loop as the amended claim words it: the
parity is the other way round, byte 0 becomes 0x03 when the outer index
parameter is even and 0x02 when it is odd. -/
def examplePubkeyAmendedStep (index : Int) (data : List Nat) : List Nat :=
  ((sha512 data).take 33).set 0 (if index % 2 = 0 then 0x03 else 0x02)

/-- examplePubkey as the amended claim C1 words it. -/
def examplePubkeyAmended (index : Int) : String :=
  toBase64 (jsLoop (examplePubkeyAmendedStep index) index.toNat examplePubkeySeed)

/-- checkAddress as claim C3 describes it (a definition following the
claim's words, compared with the one from the source): null exactly on an
input that decodes as bech32 with the configured prefix and a 20-byte
payload; "Empty" on empty input; the stringified decoder error on a decode
failure; a message naming the expected and the actual prefix on a prefix
mismatch; a fixed length-mismatch message otherwise. -/
def checkAddressSpec (cfg : Config) (input : String) : Option String :=
  if input = "" then some "Empty"
  else
    match Bech32.decode input with
    | .error e => some ("Error: " ++ e)
    | .ok (pfx, data) =>
      if pfx = cfg.addressPrefix then
        if data.length = 20 then none
        else some "Invalid address length in bech32 data. Must be 20 bytes."
      else
        some ("Expected address prefix '" ++ cfg.addressPrefix ++ "' but got '" ++
          pfx ++ "'")

/-! ## Concrete configurations for witnesses -/

/-- A concrete configuration (the Stargaze values the deployment documents),
with the explorer template configured. -/
def demoConfig : Config :=
  ⟨"ustars", 6, "STARS", "stars", some "https://www.mintscan.io/stargaze/txs/%s"⟩

/-- The same configuration with no explorer template configured. -/
def demoConfigBare : Config := ⟨"ustars", 6, "STARS", "stars", none⟩

/-! ## Helper lemmas -/

/-- The character data of an appended string is the appended data. -/
theorem strData_append (p q : String) : (p ++ q).data = p.data ++ q.data := by
  cases p
  cases q
  rfl

/-- The length of an appended string is the sum of the lengths. -/
theorem strLength_append (p q : String) : (p ++ q).length = p.length + q.length := by
  show (p ++ q).data.length = p.data.length + q.data.length
  rw [strData_append, List.length_append]

/-- Mapping over an Except value keeps its error status. -/
theorem exceptIsError_map {ε α β : Type} (f : α → β) (e : Except ε α) :
    exceptIsError (e.map f) = exceptIsError e := by
  cases e <;> rfl

/-- The fixed-point parser succeeds on a valid numeral when the exponent is
in range. -/
theorem fromAtomics_ok_of_valid (s : String) (e : Nat) (he : e ≤ 100)
    (hs : validAtomics s = true) :
    Decimal.fromAtomics s e = .ok ⟨parseDecimalDigits s, e⟩ := by
  simp [Decimal.fromAtomics, Nat.not_lt.mpr he, hs]

/-- With an exponent in range, the fixed-point parser throws exactly on an
invalid numeral. -/
theorem fromAtomics_error_iff (s : String) (e : Nat) (he : e ≤ 100) :
    exceptIsError (Decimal.fromAtomics s e) = true ↔ validAtomics s = false := by
  rw [Decimal.fromAtomics, if_neg (Nat.not_lt.mpr he)]
  cases hv : validAtomics s <;> simp [exceptIsError]

/-- The canonical rendering of the zero decimal is "0" at every exponent. -/
theorem decimalToString_zero (e : Nat) : Decimal.toString ⟨0, e⟩ = "0" := by
  simp [Decimal.toString]
  rfl

/-- A SHA-512 digest has 64 bytes. -/
theorem sha512_length (msg : List Nat) : (sha512 msg).length = 64 := by
  simp [sha512, word64Bytes]

/-! ## Claim theorems -/

/-- C7: abbreviateLongString returns every string of fewer than 13 characters
unchanged, and for every string of at least 13 characters returns the first
five characters, the three-character marker "...", and the last five
characters, so the output then has exactly 13 characters. -/
theorem abbreviateLongString_c7 :
    (∀ s : String, s.length < 13 → abbreviateLongString s = s) ∧
    (∀ s : String, 13 ≤ s.length →
      abbreviateLongString s =
        String.mk (s.data.take 5) ++ "..." ++
          String.mk (s.data.drop (s.data.length - 5)) ∧
      (abbreviateLongString s).length = 13) := by
  constructor
  · intro s h
    simp [abbreviateLongString, h]
  · intro s h
    have h13 : ¬ s.length < 13 := Nat.not_lt.mpr h
    have hd : 13 ≤ s.data.length := h
    refine ⟨by simp [abbreviateLongString, h13], ?_⟩
    have t1 : (String.mk (s.data.take 5)).length = 5 := by
      show (s.data.take 5).length = 5
      rw [List.length_take]
      omega
    have t2 : ("..." : String).length = 3 := rfl
    have t3 : (String.mk (s.data.drop (s.data.length - 5))).length = 5 := by
      show (s.data.drop (s.data.length - 5)).length = 5
      rw [List.length_drop]
      omega
    rw [abbreviateLongString, if_neg h13, strLength_append, strLength_append,
      t1, t2, t3]

/-- C7 witness: a five-character string is returned unchanged, and a
sixteen-character string is abbreviated to 13 characters. -/
theorem abbreviateLongString_c7_witness :
    ("abcde" : String).length < 13 ∧ abbreviateLongString "abcde" = "abcde" ∧
    13 ≤ ("0123456789abcdef" : String).length ∧
    (abbreviateLongString "0123456789abcdef").length = 13 :=
  ⟨by decide, abbreviateLongString_c7.1 "abcde" (by decide), by decide,
    (abbreviateLongString_c7.2 "0123456789abcdef" (by decide)).2⟩

/-- C4: printableCoins raises an explicit error on every coin sequence whose
length is not exactly 1, and on a one-element sequence returns exactly what
printableCoin returns on the sole element. -/
theorem printableCoins_c4 :
    (∀ (cfg : Config) (coins : List (Option Coin)), coins.length ≠ 1 →
      printableCoins cfg coins =
        .error "Implementation only supports exactly one coin entry.") ∧
    (∀ (cfg : Config) (c : Option Coin),
      printableCoins cfg [c] = printableCoin cfg c) := by
  constructor
  · intro cfg coins h
    simp [printableCoins, h]
  · intro cfg c
    simp [printableCoins]

/-- C4 witness: the empty sequence and a two-element sequence raise, a
one-element sequence delegates. -/
theorem printableCoins_c4_witness :
    printableCoins demoConfig [] =
      .error "Implementation only supports exactly one coin entry." ∧
    printableCoins demoConfig
        [some ⟨some "5", some "foo"⟩, some ⟨some "6", some "bar"⟩] =
      .error "Implementation only supports exactly one coin entry." ∧
    printableCoins demoConfig [some ⟨some "5", some "foo"⟩] =
      printableCoin demoConfig (some ⟨some "5", some "foo"⟩) :=
  ⟨printableCoins_c4.1 demoConfig [] (by decide),
    printableCoins_c4.1 demoConfig _ (by decide),
    printableCoins_c4.2 demoConfig _⟩

/-- C5: a coin whose denom equals the configured native denom is always
formatted by the native-denom rule (configured exponent and display ticker),
whatever its denom looks like; the leading-'u' rule (fixed exponent 6, the
denom without its leading 'u' upper-cased as ticker) applies exactly to the
coins whose denom starts with 'u' but is not the native denom. -/
theorem printableCoin_c5 (cfg : Config) :
    (∀ c : Coin, c.denom = some cfg.nativeDenom →
      printableCoin cfg (some c) =
        (Decimal.fromAtomics (c.amount.getD "0") cfg.displayDenomExponent).map
          (fun v => v.toString ++ thinSpace ++ cfg.displayDenom)) ∧
    (∀ (c : Coin) (d : String), c.denom = some d → d ≠ cfg.nativeDenom →
      strStartsWith d "u" = true →
      printableCoin cfg (some c) =
        (Decimal.fromAtomics (c.amount.getD "0") 6).map
          (fun v => v.toString ++ thinSpace ++
            strToUpper (String.mk (d.data.drop 1)))) := by
  constructor
  · intro c h
    simp [printableCoin, h]
  · intro c d hd hne hu
    simp [printableCoin, hd, hne, hu]

/-- C5 witness: with native denom "ustars", a "ustars" coin takes the native
rule (ticker STARS) even though "ustars" starts with 'u', while a "uatom"
coin takes the micro rule (ticker ATOM). -/
theorem printableCoin_c5_witness :
    printableCoin demoConfig (some ⟨some "1000000", some "ustars"⟩) =
      .ok ("1" ++ thinSpace ++ "STARS") ∧
    printableCoin demoConfig (some ⟨some "1000000", some "uatom"⟩) =
      .ok ("1" ++ thinSpace ++ "ATOM") :=
  ⟨((printableCoin_c5 demoConfig).1 ⟨some "1000000", some "ustars"⟩ rfl).trans rfl,
    ((printableCoin_c5 demoConfig).2 ⟨some "1000000", some "uatom"⟩ "uatom" rfl
      (by decide) (by decide)).trans rfl⟩

/-- C9: a coin with a missing amount does not make printableCoin throw in the
native-denom branch or the leading-'u' branch: the missing amount is parsed
as the numeral "0", so the result is the rendering of zero, the narrow
no-break space, and the branch's ticker (the configured exponent is in the
parser's range). -/
theorem printableCoin_c9 (cfg : Config)
    (hexp : cfg.displayDenomExponent ≤ 100) :
    (∀ c : Coin, c.amount = none → c.denom = some cfg.nativeDenom →
      printableCoin cfg (some c) = .ok ("0" ++ thinSpace ++ cfg.displayDenom)) ∧
    (∀ (c : Coin) (d : String), c.amount = none → c.denom = some d →
      d ≠ cfg.nativeDenom → strStartsWith d "u" = true →
      printableCoin cfg (some c) =
        .ok ("0" ++ thinSpace ++ strToUpper (String.mk (d.data.drop 1)))) := by
  have hzero : validAtomics "0" = true := by decide
  constructor
  · intro c ha h
    rw [(printableCoin_c5 cfg).1 c h, ha]
    show ((Decimal.fromAtomics "0" cfg.displayDenomExponent).map _) = _
    rw [fromAtomics_ok_of_valid "0" cfg.displayDenomExponent hexp hzero]
    show Except.ok (Decimal.toString ⟨parseDecimalDigits "0", _⟩ ++ _ ++ _) = _
    have hp : parseDecimalDigits "0" = 0 := rfl
    rw [hp, decimalToString_zero]
  · intro c d ha hd hne hu
    rw [(printableCoin_c5 cfg).2 c d hd hne hu, ha]
    show ((Decimal.fromAtomics "0" 6).map _) = _
    rw [fromAtomics_ok_of_valid "0" 6 (by decide) hzero]
    show Except.ok (Decimal.toString ⟨parseDecimalDigits "0", _⟩ ++ _ ++ _) = _
    have hp : parseDecimalDigits "0" = 0 := rfl
    rw [hp, decimalToString_zero]

/-- C9 witness: with the demo configuration, missing amounts render as zero
in both branches. -/
theorem printableCoin_c9_witness :
    demoConfig.displayDenomExponent ≤ 100 ∧
    printableCoin demoConfig (some ⟨none, some "ustars"⟩) =
      .ok ("0" ++ thinSpace ++ "STARS") ∧
    printableCoin demoConfig (some ⟨none, some "uatom"⟩) =
      .ok ("0" ++ thinSpace ++ "ATOM") :=
  ⟨by decide,
    ((printableCoin_c9 demoConfig (by decide)).1 ⟨none, some "ustars"⟩ rfl rfl).trans rfl,
    ((printableCoin_c9 demoConfig (by decide)).2 ⟨none, some "uatom"⟩ "uatom" rfl rfl
      (by decide) (by decide)).trans rfl⟩

/-- C2 (amended): printableCoin throws exactly on the coins formatted by the
native-denom branch or the leading-'u' branch whose amount is present but is
not a valid non-negative integer numeral (with the configured exponent in
the parser's range); a missing amount is parsed as "0", and a coin formatted
by the verbatim fallback branch never throws, whatever its amount. -/
theorem printableCoin_c2_amended (cfg : Config)
    (hexp : cfg.displayDenomExponent ≤ 100) (c : Coin) :
    exceptIsError (printableCoin cfg (some c)) = true ↔
      ((c.denom = some cfg.nativeDenom ∨
        (c.denom.map (fun d => strStartsWith d "u")).getD false = true) ∧
       ∃ a, c.amount = some a ∧ validAtomics a = false) := by
  by_cases hN : c.denom = some cfg.nativeDenom
  · rw [(printableCoin_c5 cfg).1 c hN, exceptIsError_map,
      fromAtomics_error_iff _ _ hexp]
    cases ha : c.amount with
    | none =>
      simp [ha]
      decide
    | some a => simp [ha, hN]
  · by_cases hU : (c.denom.map (fun d => strStartsWith d "u")).getD false = true
    · have : printableCoin cfg (some c) =
          (Decimal.fromAtomics (c.amount.getD "0") 6).map
            (fun v => v.toString ++ thinSpace ++
              strToUpper (String.mk ((c.denom.getD "").data.drop 1))) := by
        simp [printableCoin, hN, hU]
      rw [this, exceptIsError_map, fromAtomics_error_iff _ _ (by decide)]
      cases ha : c.amount with
      | none =>
        simp [ha]
        decide
      | some a => simp [ha, hU]
    · have : printableCoin cfg (some c) =
          .ok (jsOptString c.amount ++ thinSpace ++ jsOptString c.denom) := by
        simp [printableCoin, hN, hU]
      rw [this]
      simp [exceptIsError, hN, hU]

/-- C2 counterexample: a coin with the malformed amount "x" and the denom
"foo" (neither the native denom nor a leading-'u' denom) does not make
printableCoin throw: it is rendered verbatim, so a malformed amount does not
always raise regardless of the denom. -/
theorem printableCoin_c2_counterexample :
    validAtomics "x" = false ∧
    printableCoin demoConfig (some ⟨some "x", some "foo"⟩) =
      .ok ("x" ++ thinSpace ++ "foo") :=
  ⟨by decide, rfl⟩

/-- C2 witness: with the demo configuration, a "ustars" coin with the
malformed amount "12x" throws. -/
theorem printableCoin_c2_amended_witness :
    demoConfig.displayDenomExponent ≤ 100 ∧
    exceptIsError (printableCoin demoConfig (some ⟨some "12x", some "ustars"⟩)) = true :=
  ⟨by decide,
    (printableCoin_c2_amended demoConfig (by decide) ⟨some "12x", some "ustars"⟩).mpr
      ⟨Or.inl rfl, "12x", rfl, by decide⟩⟩

/-- C3: checkAddress is a total validator behaving exactly as described (so
it never throws: every failure is a returned message), and it returns null
exactly on the inputs that bech32-decode to the configured address prefix
with a 20-byte payload. -/
theorem checkAddress_c3 :
    (∀ (cfg : Config) (input : String),
      checkAddress cfg input = checkAddressSpec cfg input) ∧
    (∀ (cfg : Config) (input : String),
      checkAddress cfg input = none ↔
        ∃ data, Bech32.decode input = .ok (cfg.addressPrefix, data) ∧
          data.length = 20) := by
  have hempty : Bech32.decode "" = .error (" too short") := rfl
  constructor
  · intro cfg input
    by_cases h0 : input = ""
    · simp [checkAddress, checkAddressSpec, h0]
    · rw [checkAddress, checkAddressSpec, if_neg h0, if_neg h0]
      cases hdec : Bech32.decode input with
      | error e => rfl
      | ok pd =>
        obtain ⟨pfx, data⟩ := pd
        by_cases hp : pfx = cfg.addressPrefix
        · by_cases hl : data.length = 20 <;> simp [hp, hl]
        · simp [hp]
  · intro cfg input
    by_cases h0 : input = ""
    · subst h0
      rw [checkAddress, if_pos rfl]
      constructor
      · intro h
        simp at h
      · rintro ⟨data, hd, -⟩
        rw [hempty] at hd
        exact Except.noConfusion hd
    · rw [checkAddress, if_neg h0]
      cases hdec : Bech32.decode input with
      | error e =>
        constructor
        · intro h
          simp at h
        · rintro ⟨data, hd, -⟩
          exact Except.noConfusion hd
      | ok pd =>
        obtain ⟨pfx, data⟩ := pd
        by_cases hp : pfx = cfg.addressPrefix
        · subst hp
          by_cases hl : data.length = 20
          · constructor
            · intro _
              exact ⟨data, rfl, hl⟩
            · intro _
              simp [hl]
          · constructor
            · intro h
              simp [hl] at h
            · rintro ⟨d, hd, hdl⟩
              rw [Except.ok.injEq, Prod.mk.injEq] at hd
              rw [← hd.2] at hdl
              exact absurd hdl hl
        · constructor
          · intro h
            simp [hp] at h
          · rintro ⟨d, hd, -⟩
            rw [Except.ok.injEq, Prod.mk.injEq] at hd
            exact absurd hd.1 hp

set_option maxRecDepth 100000 in
/-- C3 witness: the empty input reports "Empty", and a well-formed address
under the configured prefix (the seed payload re-encoded under "stars")
validates to null. -/
theorem checkAddress_c3_witness :
    checkAddress demoConfig "" = some "Empty" ∧
    checkAddress demoConfig (Bech32.encode "stars" exampleAddressSeed) = none :=
  ⟨(checkAddress_c3.1 demoConfig "").trans rfl,
    (checkAddress_c3.2 demoConfig _).mpr ⟨exampleAddressSeed, rfl, rfl⟩⟩

/-- Splitting at the first occurrence of "%s" after a clean part a: when a
holds no occurrence of "%s", the first occurrence of "%s" in a ++ "%s" ++ b
is the explicit one. -/
theorem splitFirst_clean (a b : List Char)
    (h : listHasInfix ['%', 's'] a = false) :
    splitFirst ['%', 's'] (a ++ '%' :: 's' :: b) = some (a, b) := by
  induction a with
  | nil =>
    simp [splitFirst, List.isPrefixOf]
  | cons c a ih =>
    rw [List.cons_append, splitFirst]
    rw [listHasInfix, Bool.or_eq_false_iff] at h
    have hnp : (['%', 's'].isPrefixOf (c :: (a ++ '%' :: 's' :: b))) = false := by
      cases a with
      | nil =>
        simp [List.isPrefixOf]
      | cons d a2 =>
        have h1 := h.1
        simp only [List.isPrefixOf, List.cons_append, Bool.and_eq_false_iff] at h1 ⊢
        rcases h1 with h1 | h1
        · exact Or.inl h1
        · exact Or.inr h1
    rw [hnp]
    simp only [Bool.false_eq_true, if_false]
    rw [ih h.2]
    rfl

/-- Replacing the first "%s" after a clean part substitutes the
dollar-expanded replacement exactly there. -/
theorem replaceFirst_clean (a b rep : List Char)
    (h : listHasInfix ['%', 's'] a = false) :
    replaceFirst (a ++ '%' :: 's' :: b) ['%', 's'] rep =
      a ++ jsGetSubstitution ['%', 's'] a b rep ++ b := by
  rw [replaceFirst, splitFirst_clean a b h]

/-- A replacement free of the dollar character is inserted verbatim: the
substitution rules only fire on a dollar. -/
theorem jsGetSubstitution_no_dollar (matched before after rep : List Char)
    (h : '$' ∉ rep) :
    jsGetSubstitution matched before after rep = rep := by
  induction rep with
  | nil => rfl
  | cons c rest ih =>
    rw [List.mem_cons, not_or] at h
    have hc : ¬ c = '$' := fun hh => h.1 hh.symm
    rw [jsGetSubstitution.eq_def]
    simp only [hc, if_false]
    rw [ih h.2]

/-- C8 counterexample: with the demo template configured, the hash
consisting of a dollar and an ampersand is not inserted as such: JavaScript
dollar-substitution replaces it by the matched text "%s", so the result is
the template unchanged, not the template with "%s" replaced by the hash. -/
theorem explorerLinkTx_c8_counterexample :
    jsTruthy demoConfig.explorerLinkTxTemplate = true ∧
    explorerLinkTx demoConfig "$&" =
      some "https://www.mintscan.io/stargaze/txs/%s" ∧
    explorerLinkTx demoConfig "$&" ≠
      some "https://www.mintscan.io/stargaze/txs/$&" :=
  ⟨by decide, by decide, by decide⟩

/-- C8 (amended): explorerLinkTx returns null whenever the explorer template
is not configured (unset or empty, which is falsy); with a configured
template holding "%s" after a part free of "%s", and a hash free of the
dollar character, it returns the template with that first occurrence
replaced by the hash (a dollar in the hash triggers the replacement's
dollar-substitution instead of verbatim insertion). -/
theorem explorerLinkTx_c8_amended :
    (∀ (cfg : Config) (hash : String),
      jsTruthy cfg.explorerLinkTxTemplate = false →
      explorerLinkTx cfg hash = none) ∧
    (∀ (cfg : Config) (hash t : String) (a b : List Char),
      cfg.explorerLinkTxTemplate = some t → t ≠ "" →
      t.data = a ++ '%' :: 's' :: b → listHasInfix ['%', 's'] a = false →
      '$' ∉ hash.data →
      explorerLinkTx cfg hash = some (String.mk (a ++ hash.data ++ b))) := by
  constructor
  · intro cfg hash h
    cases ht : cfg.explorerLinkTxTemplate with
    | none => rw [explorerLinkTx, ht]
    | some t =>
      rw [ht, jsTruthy] at h
      have ht0 : t = "" := by simpa using h
      rw [explorerLinkTx, ht, ht0]
      rfl
  · intro cfg hash t a b hT hne hdata hclean hdollar
    rw [explorerLinkTx, hT]
    show (if t = "" then none
      else some (String.mk (replaceFirst t.data ['%', 's'] hash.data))) = _
    rw [if_neg hne, hdata, replaceFirst_clean a b hash.data hclean,
      jsGetSubstitution_no_dollar ['%', 's'] a b hash.data hdollar]

/-- C8 witness: no template configured gives null; the demo template maps
the dollar-free hash "ABC" to the substituted link. -/
theorem explorerLinkTx_c8_amended_witness :
    ('$' ∉ ("ABC" : String).data) ∧
    explorerLinkTx demoConfigBare "ABC" = none ∧
    explorerLinkTx demoConfig "ABC" =
      some "https://www.mintscan.io/stargaze/txs/ABC" :=
  ⟨by decide, explorerLinkTx_c8_amended.1 demoConfigBare "ABC" (by decide),
    (explorerLinkTx_c8_amended.2 demoConfig "ABC"
      "https://www.mintscan.io/stargaze/txs/%s"
      "https://www.mintscan.io/stargaze/txs/".data [] rfl (by decide) (by decide)
      (by decide) (by decide)).trans (by decide)⟩

set_option maxRecDepth 100000 in
/-- C10: examplePubkey returns the fixed base64 seed string itself at index
0, and an absent (undefined or null) index behaves as 0 and yields the same
string: the loop body never runs. -/
theorem examplePubkey_c10 :
    examplePubkey none = examplePubkeySeedB64 ∧
    examplePubkey (some 0) = examplePubkeySeedB64 :=
  ⟨by decide, by decide⟩

set_option maxRecDepth 100000 in
/-- C1 counterexample: already at index 1 the code disagrees with the claim's
loop body, because the code writes 0x02 for an odd index where the claim
demands 0x03 (and 0x03 for an even index where the claim demands 0x02). -/
theorem examplePubkey_c1_counterexample :
    (1 : Int) ≥ 1 ∧ examplePubkey (some 1) ≠ examplePubkeyClaimed 1 :=
  ⟨by decide, by decide⟩

/-- The code's loop and the amended claim's loop agree from the seed on, and
the data stays 33 bytes long throughout. -/
theorem pubkeyLoop_amended (i : Int) (n : Nat) :
    jsLoop (examplePubkeyStep i) n examplePubkeySeed =
      jsLoop (examplePubkeyAmendedStep i) n examplePubkeySeed ∧
    (jsLoop (examplePubkeyStep i) n examplePubkeySeed).length = 33 := by
  induction n with
  | zero =>
    refine ⟨rfl, ?_⟩
    show examplePubkeySeed.length = 33
    decide
  | succ n ih =>
    obtain ⟨heq, hlen⟩ := ih
    constructor
    · show examplePubkeyStep i (jsLoop (examplePubkeyStep i) n examplePubkeySeed) =
        examplePubkeyAmendedStep i (jsLoop (examplePubkeyAmendedStep i) n examplePubkeySeed)
      rw [examplePubkeyStep, examplePubkeyAmendedStep, hlen, heq]
    · show (examplePubkeyStep i (jsLoop (examplePubkeyStep i) n examplePubkeySeed)).length = 33
      rw [examplePubkeyStep, List.length_set, List.length_take, hlen, sha512_length]
      decide

/-- C1 (amended): for every integer index at least 1, examplePubkey runs the
loop index times, each iteration replacing the 33-byte data with the first
33 bytes of its SHA-512 digest and then forcing byte 0 with the parity of
the outer index parameter on every iteration, namely to 0x03 when the index
is even and to 0x02 when it is odd; the result is the base64 encoding of the
final bytes. -/
theorem examplePubkey_c1_amended (i : Int) (_h : 1 ≤ i) :
    examplePubkey (some i) = examplePubkeyAmended i := by
  show toBase64 (jsLoop (examplePubkeyStep i) i.toNat examplePubkeySeed) =
    toBase64 (jsLoop (examplePubkeyAmendedStep i) i.toNat examplePubkeySeed)
  exact congrArg toBase64 (pubkeyLoop_amended i i.toNat).1

/-- C1 witness: the amended claim at index 1. -/
theorem examplePubkey_c1_amended_witness :
    (1 : Int) ≥ 1 ∧ examplePubkey (some 1) = examplePubkeyAmended 1 :=
  ⟨by decide, examplePubkey_c1_amended 1 (by decide)⟩

/-- Two byte lists whose bech32 data words map to distinct character lists
of the same length encode to distinct bech32 strings under every prefix: the
encodings share the prefix and separator, and differ inside the data part
before the checksum. -/
theorem bech32Encode_ne (hrp : String) (d1 d2 : List Nat)
    (hlen : ((bech32ToWords d1).map (fun w => bech32Charset.getD w 'q')).length =
      ((bech32ToWords d2).map (fun w => bech32Charset.getD w 'q')).length)
    (hne : (bech32ToWords d1).map (fun w => bech32Charset.getD w 'q') ≠
      (bech32ToWords d2).map (fun w => bech32Charset.getD w 'q')) :
    Bech32.encode hrp d1 ≠ Bech32.encode hrp d2 := by
  intro heq
  apply hne
  have h2 : hrp.data.map charLower ++ '1' ::
      ((bech32ToWords d1 ++
        bech32CreateChecksum (hrp.data.map charLower) (bech32ToWords d1)).map
          (fun w => bech32Charset.getD w 'q')) =
      hrp.data.map charLower ++ '1' ::
      ((bech32ToWords d2 ++
        bech32CreateChecksum (hrp.data.map charLower) (bech32ToWords d2)).map
          (fun w => bech32Charset.getD w 'q')) := congrArg String.data heq
  have h3 := List.append_cancel_left h2
  rw [List.cons.injEq] at h3
  have h4 := h3.2
  rw [List.map_append, List.map_append] at h4
  exact (List.append_inj h4 hlen).1

set_option maxRecDepth 100000 in
/-- C6: exampleAddress is deterministic; the hard-coded seed decodes to a
20-byte payload; index 0 re-encodes that payload unchanged under the
configured address prefix; and index 1 yields a different string than index
0 under every configured prefix. -/
theorem exampleAddress_c6 (cfg : Config) :
    (∀ index : Option Int, exampleAddress cfg index = exampleAddress cfg index) ∧
    exampleAddressSeed.length = 20 ∧
    exampleAddress cfg (some 0) = Bech32.encode cfg.addressPrefix exampleAddressSeed ∧
    exampleAddress cfg (some 1) ≠ exampleAddress cfg (some 0) := by
  refine ⟨fun _ => rfl, by decide, rfl, ?_⟩
  show Bech32.encode cfg.addressPrefix (hashStep exampleAddressSeed) ≠
    Bech32.encode cfg.addressPrefix exampleAddressSeed
  exact bech32Encode_ne cfg.addressPrefix (hashStep exampleAddressSeed)
    exampleAddressSeed (by decide) (by decide)
